import Mathlib

/-
Verification of the crawler's core against its specification.

The development shallowly embeds src/main.rs:
  - a model of the parts of the url crate the crawler uses (Url.parse,
    Url.join, set_path/set_query), faithful on the inputs exercised here;
  - the link resolver (parse_links), the aggregate parser (Aggregate.parse),
    process_page and crawl_page (with the HTML tokenizer abstracted to the
    href/src attribute lists it extracts, and the network abstracted to the
    fetched body);
  - the dispatcher loop (Dispatcher::run) in two forms: a nondeterministic
    step relation DStep/Reach covering every interleaving of task
    completions (for invariants), and a deterministic executable pass
    function modelling one iteration of the main loop with all network
    operations succeeding (for evaluation).
Rust u8/u32 counters are modelled as Nat: the program performs no arithmetic
on depths, and visit counts are guarded below 512, so no overflow is
reachable in the modelled executions. Panics are modelled as Option/Except
failure values.
-/

namespace Crawler

/-- Decide whether the first list occurs contiguously inside the second. -/
def listInfix (pat : List Char) : List Char → Bool
  | [] => pat.isEmpty
  | c :: t => pat.isPrefixOf (c :: t) || listInfix pat t

/-- Substring test modelling Rust str::contains (also used for
`u.scheme().contains("http")` at src/main.rs:280). -/
def containsSubstr (s pat : String) : Bool :=
  listInfix pat.toList s.toList

/-- Errors of the url crate's parser that the modelled inputs can produce. -/
inductive ParseError
  | RelativeUrlWithoutBase
  | EmptyHost
  | InvalidDomainCharacter
  | InvalidPort
deriving DecidableEq, Repr

/-- Display strings of url::ParseError, as printed by `panic!("{}", err)`
in setup_app (src/main.rs:397). -/
def ParseError.display : ParseError → String
  | .RelativeUrlWithoutBase => "relative URL without a base"
  | .EmptyHost => "empty host"
  | .InvalidDomainCharacter => "invalid domain character"
  | .InvalidPort => "invalid port number"

/-- Model of url::Url restricted to the components the crawler reads:
scheme, host, path and query. Fragments are dropped, ports are validated
but not stored, userinfo is stripped (as in the WHATWG parser). -/
structure Url where
  scheme : String
  host : Option String
  path : String
  query : Option String
deriving DecidableEq, Repr

/-- Scheme characters after the first, per the WHATWG URL standard. -/
def isSchemeChar (c : Char) : Bool :=
  c.isAlphanum || c == '+' || c == '-' || c == '.'

/-- Split a string at its first colon, returning the characters before and
after it; none when the string has no colon. -/
def takeToColon : List Char → Option (List Char × List Char)
  | [] => none
  | c :: t =>
    if c = ':' then some ([], t)
    else
      match takeToColon t with
      | none => none
      | some (a, b) => some (c :: a, b)

/-- Extract a leading scheme (letter, then scheme characters, then a colon),
lowercased; none when the string has no valid scheme, in which case the url
crate reports RelativeUrlWithoutBase. -/
def splitScheme (s : String) : Option (String × String) :=
  match takeToColon s.toList with
  | none => none
  | some ([], _) => none
  | some (c :: cs, rest) =>
    if c.isAlpha && cs.all isSchemeChar then
      some (String.mk ((c :: cs).map Char.toLower), String.mk rest)
    else
      none

/-- Special schemes of the WHATWG URL standard (those that carry an
authority and a normalized path). -/
def specialScheme (s : String) : Bool :=
  s = "http" || s = "https" || s = "ws" || s = "wss" || s = "ftp" || s = "file"

/-- Forbidden host code points of the WHATWG URL standard: a host holding
one of these makes parsing fail. -/
def forbiddenHostChar (c : Char) : Bool :=
  c == ' ' || c == '#' || c == '/' || c == '?' || c == '@' || c == '[' ||
  c == ']' || c == '<' || c == '>' || c == '^' || c == '|' || c == '\\' ||
  c == '\t' || c == '\n' || c == '\r' || c == '%'

/-- Split the serialized remainder after the authority into a path and an
optional query; a fragment is dropped. -/
def splitPathQuery (l : List Char) : String × Option String :=
  let path := l.takeWhile (fun c => !(c == '?' || c == '#'))
  let rest := l.dropWhile (fun c => !(c == '?' || c == '#'))
  match rest with
  | '?' :: t => (String.mk path, some (String.mk (t.takeWhile (fun c => !(c == '#')))))
  | _ => (String.mk path, none)

/-- Parse an authority followed by a path and query, as the url crate does
after `scheme://`: strip userinfo, split off and validate a port, reject an
empty host or a forbidden host code point, lowercase the host, and give
special-scheme URLs the path "/" when the remainder has none. -/
def parseAuthorityAndPath (sc : String) (l : List Char) : Except ParseError Url :=
  let auth := l.takeWhile (fun c => !(c == '/' || c == '?' || c == '#'))
  let rest := l.dropWhile (fun c => !(c == '/' || c == '?' || c == '#'))
  let hostPort := (auth.reverse.takeWhile (fun c => !(c == '@'))).reverse
  let hostChars := hostPort.takeWhile (fun c => !(c == ':'))
  let portChars := hostPort.dropWhile (fun c => !(c == ':'))
  if hostChars.isEmpty then .error .EmptyHost
  else if hostChars.any forbiddenHostChar then .error .InvalidDomainCharacter
  else if !portChars.isEmpty && !(portChars.drop 1).all Char.isDigit then .error .InvalidPort
  else
    let pq := splitPathQuery rest
    .ok { scheme := sc
          host := some (String.mk (hostChars.map Char.toLower))
          path := if pq.1 = "" && specialScheme sc then "/" else pq.1
          query := pq.2 }

/-- Model of url::Url::parse. A string without a scheme fails with
RelativeUrlWithoutBase; a special-scheme string parses its authority; a
non-special scheme yields a host-less URL with an opaque path (the
cannot-be-a-base case, e.g. mailto: and javascript: URLs). -/
def Url.parse (s : String) : Except ParseError Url :=
  match splitScheme s with
  | none => .error .RelativeUrlWithoutBase
  | some (sc, rest) =>
    let l := rest.toList
    if l.take 2 = ['/', '/'] then
      parseAuthorityAndPath sc (l.drop 2)
    else if specialScheme sc then
      parseAuthorityAndPath sc (l.dropWhile (fun c => c == '/'))
    else
      let pq := splitPathQuery l
      .ok { scheme := sc, host := none, path := pq.1, query := pq.2 }

/-- Model of url::Url::join for the scheme-less inputs the crawler joins
(parse_links only joins candidates whose parse failed with
RelativeUrlWithoutBase): a protocol-relative reference reparses the
authority under the base scheme, an absolute path replaces the base path
and query, and any other reference resolves against the directory of the
base path. -/
def Url.join (base : Url) (input : String) : Except ParseError Url :=
  let l := input.toList
  if l.take 2 = ['/', '/'] then
    parseAuthorityAndPath base.scheme (l.drop 2)
  else if l.take 1 = ['/'] then
    let pq := splitPathQuery l
    .ok { scheme := base.scheme, host := base.host, path := pq.1, query := pq.2 }
  else if l.isEmpty then
    .ok { base with query := none }
  else
    let dir := (base.path.toList.reverse.dropWhile (fun c => !(c == '/'))).reverse
    let pq := splitPathQuery l
    .ok { scheme := base.scheme, host := base.host, path := String.mk dir ++ pq.1, query := pq.2 }

/-- Site-root computation of process_page (src/main.rs:224-226):
`page_url.set_path(""); page_url.set_query(None)`. The url crate keeps the
path of a special-scheme URL rooted, so setting it empty serializes as "/". -/
def siteRoot (u : Url) : Url :=
  { u with path := if specialScheme u.scheme then "/" else "", query := none }

/-- Crawl recursion constant MAX_RECURSION_DEPTH (src/main.rs:48). -/
def MAX_RECURSION_DEPTH : Nat := 4

/-- Host admission ceiling MAX_HOST_VISITORS (src/main.rs:49). -/
def MAX_HOST_VISITORS : Nat := 512

/-- Unit of crawl work (src/main.rs:89-92): a page with its depth tag, or an
image with no depth tag. -/
inductive Finding
  | Page : Url → Nat → Finding
  | Image : Url → Finding
deriving DecidableEq, Repr

/-- URL selected from a Finding by the dispatcher (src/main.rs:132-134). -/
def Finding.url : Finding → Url
  | .Page u _ => u
  | .Image u => u

/-- Host of a Finding's URL, the throttle key (src/main.rs:135). -/
def hostOf (f : Finding) : Option String :=
  f.url.host

/-- Resolution of one candidate string by parse_links (src/main.rs:272-279):
Ok keeps the URL, RelativeUrlWithoutBase resolves against the page URL with
`.unwrap()` (a join failure panics, modelled as the outer none), and any
other parse failure logs a warning and drops the candidate (inner none). -/
def resolveLink (page_url : Url) (l : String) : Option (Option Url) :=
  match Url.parse l with
  | .error .RelativeUrlWithoutBase =>
    match page_url.join l with
    | .ok u => some (some u)
    | .error _ => none
  | .error _ => some none
  | .ok u => some (some u)

/-- Resolution of every candidate of a page, propagating the panic of any
single failing join to the whole list as the Rust iterator does when
collect drives it. -/
def resolveLinks (page_url : Url) : List String → Option (List Url)
  | [] => some []
  | l :: t =>
    match resolveLink page_url l with
    | none => none
    | some none => resolveLinks page_url t
    | some (some u) =>
      match resolveLinks page_url t with
      | none => none
      | some us => some (u :: us)

/-- First-occurrence deduplication with an accumulator, modelling
`collect::<HashSet<_>>` with iteration order fixed to discovery order. -/
def dedupAcc : List Url → List Url → List Url
  | [], acc => acc.reverse
  | u :: t, acc => if u ∈ acc then dedupAcc t acc else dedupAcc t (u :: acc)

/-- Model of parse_links (src/main.rs:269-283): resolve every candidate,
keep only URLs whose scheme contains "http" and whose host is present, and
collect into a set; none models the process-killing panic of the
`.unwrap()` on a failed join. -/
def parse_links (links : List String) (page_url : Url) : Option (List Url) :=
  match resolveLinks page_url links with
  | none => none
  | some us =>
    some (dedupAcc ((us.filter (fun u => containsSubstr u.scheme "http")).filter
      (fun u => u.host.isSome)) [])

/-- Accumulator of extracted candidate links (src/main.rs:237-242): the
href values of anchor start tags and the src values of img start tags, with
the depth the crawl was invoked at. -/
structure Aggregate where
  depth : Nat
  page_links : List String
  image_links : List String
deriving DecidableEq, Repr

/-- Model of Aggregate::new (src/main.rs:245-251). -/
def Aggregate.new (depth : Nat) : Aggregate :=
  { depth := depth, page_links := [], image_links := [] }

/-- Model of Aggregate::parse (src/main.rs:254-267): resolve both candidate
lists against the page URL, tag page findings with the aggregate's own
depth, leave image findings untagged; none propagates a parse_links panic. -/
def Aggregate.parse (a : Aggregate) (page_url : Url) : Option (List Finding) :=
  match parse_links a.page_links page_url with
  | none => none
  | some page_links =>
    match parse_links a.image_links page_url with
    | none => none
    | some image_links =>
      some (page_links.map (fun u => Finding.Page u a.depth) ++
        image_links.map Finding.Image)

/-- Model of process_page (src/main.rs:223-235): strip the page URL to its
site-root, feed the body through the tokenizer, and parse the aggregate.
The html5ever tokenizer is an external dependency and is abstracted to its
output: the page body is represented by the href values of its anchor start
tags and the src values of its img start tags. -/
def process_page (page_url : Url) (page_links image_links : List String)
    (depth : Nat) : Option (List Finding) :=
  Aggregate.parse { Aggregate.new depth with
    page_links := page_links, image_links := image_links } (siteRoot page_url)

/-- Result of a successful crawl (src/main.rs:94-98). -/
structure CrawlResponse where
  new_findings : List Finding
  crawl_link : Url
  depth : Nat
deriving DecidableEq, Repr

/-- Model of crawl_page on HTTP success (src/main.rs:208-221): the network
fetch is abstracted to the extracted link lists of the returned body; the
depth travels through unchanged; none models a panic while processing the
page (surfacing to the dispatcher as a task failure). -/
def crawl_page (crawl_link : Url) (page_links image_links : List String)
    (depth : Nat) : Option CrawlResponse :=
  match process_page crawl_link page_links image_links depth with
  | none => none
  | some fs => some { new_findings := fs, crawl_link := crawl_link, depth := depth }

/-- Archive dedup gate (src/main.rs:182):
`new_findings.difference(&self.archive)`. -/
def archiveDifference (archive new : Finset Finding) : Finset Finding :=
  new \ archive

/-- Archive growth (src/main.rs:183): `self.archive.extend(new_findings)`. -/
def archiveExtend (archive new : Finset Finding) : Finset Finding :=
  archive ∪ new

/-- Model of the seed handling of setup_app (src/main.rs:392-399): parse
every positional argument; the first failure panics with the url crate
error's display string (the process dies before any task is spawned);
successes become depth-0 page work with no resolver filtering applied. -/
def parseSeeds : List String → Except String (List Url)
  | [] => .ok []
  | s :: t =>
    match Url.parse s with
    | .error e => .error e.display
    | .ok u =>
      match parseSeeds t with
      | .error m => .error m
      | .ok us => .ok (u :: us)

/-- The host_visits table (src/main.rs:80), a HashMap from host to in-flight
visit count, modelled as an association list over the serialized host. -/
abbrev Counts := List (String × Nat)

/-- Lookup with the default 0, modelling `entry(host).or_insert(0)` reads. -/
def getC : Counts → String → Nat
  | [], _ => 0
  | (k, v) :: t, h => if k = h then v else getC t h

/-- Increment modelling `entry(host).or_insert(0)` then `*visits += 1`
(src/main.rs:136-139). -/
def bumpC : Counts → String → Counts
  | [], h => [(h, 1)]
  | (k, v) :: t, h => if k = h then (k, v + 1) :: t else (k, v) :: bumpC t h

/-- Decrement modelling `entry(host).and_modify(|n| *n -= 1)`
(src/main.rs:180): an absent key is left untouched. -/
def decC : Counts → String → Counts
  | [], _ => []
  | (k, v) :: t, h => if k = h then (k, v - 1) :: t else (k, v) :: decC t h

/-- Mutable state of Dispatcher::run (src/main.rs:75-84,118-125): the
frontier queue, the host-visit table, the in-flight crawl and fetch tasks,
and the archive (HashSet iteration determinized to discovery order). -/
structure DState where
  queue : List Finding
  host_visits : Counts
  crawls : List (Url × Nat)
  fetches : List Url
  archive : List Finding

/-- Initial dispatcher state (src/main.rs:111-124): every seed becomes a
depth-0 page finding; every table starts empty. -/
def initState (seeds : List Url) : DState :=
  { queue := seeds.map (fun u => Finding.Page u 0)
    host_visits := []
    crawls := []
    fetches := []
    archive := [] }

/-- One observable transition of the dispatcher loop (src/main.rs:118-205),
as a relation so that every interleaving of task completions is covered.
admitPage/admitImage model one drain_filter admission (src/main.rs:131-159):
they require the strict guard `visits < MAX_HOST_VISITORS` and a present
host (a host-less URL panics, so no step exists). crawlOk models a
successful crawl harvest (src/main.rs:171-189) with the returned findings
arbitrary: release, dedup against the archive, extend it, and requeue when
the response depth is below the limit. crawlFail models a failed or
panicked crawl task (src/main.rs:169-170): no release. fetchDone models any
fetch completion (src/main.rs:194-203): no release either. -/
inductive DStep (maxDepth : Nat) : DState → DState → Prop
  | admitPage (s : DState) (u : Url) (d : Nat) (h : String)
      (hmem : Finding.Page u d ∈ s.queue)
      (hh : u.host = some h)
      (hlt : getC s.host_visits h < MAX_HOST_VISITORS) :
      DStep maxDepth s
        { s with queue := s.queue.erase (Finding.Page u d)
                 host_visits := bumpC s.host_visits h
                 crawls := (u, d) :: s.crawls }
  | admitImage (s : DState) (u : Url) (h : String)
      (hmem : Finding.Image u ∈ s.queue)
      (hh : u.host = some h)
      (hlt : getC s.host_visits h < MAX_HOST_VISITORS) :
      DStep maxDepth s
        { s with queue := s.queue.erase (Finding.Image u)
                 host_visits := bumpC s.host_visits h
                 fetches := u :: s.fetches }
  | crawlOk (s : DState) (u : Url) (d : Nat) (h : String) (found : List Finding)
      (hmem : (u, d) ∈ s.crawls)
      (hh : u.host = some h) :
      DStep maxDepth s
        { s with crawls := s.crawls.erase (u, d)
                 host_visits := decC s.host_visits h
                 archive := s.archive ++ found.filter (fun f => decide (f ∉ s.archive))
                 queue := if d < maxDepth then
                     s.queue ++ found.filter (fun f => decide (f ∉ s.archive))
                   else s.queue }
  | crawlFail (s : DState) (u : Url) (d : Nat)
      (hmem : (u, d) ∈ s.crawls) :
      DStep maxDepth s { s with crawls := s.crawls.erase (u, d) }
  | fetchDone (s : DState) (u : Url)
      (hmem : u ∈ s.fetches) :
      DStep maxDepth s { s with fetches := s.fetches.erase u }

/-- Reflexive-transitive closure of DStep: the reachable dispatcher states. -/
inductive Reach (maxDepth : Nat) : DState → DState → Prop
  | refl (s : DState) : Reach maxDepth s s
  | tail (s t u : DState) : Reach maxDepth s t → DStep maxDepth t u → Reach maxDepth s u

/-- Parameters of the deterministic execution model of Dispatcher::run: the
depth limit, and the findings a successful crawl of a URL at a depth
returns (the composition of the network fetch with process_page); none
models a crawl task that fails or panics. -/
structure PassConfig where
  maxDepth : Nat
  crawlResult : Url → Nat → Option (List Finding)

/-- State between two passes of the deterministic model. adm and rel are
instrumentation, not source state: they count, per host, the admissions
(try_admit successes) and the releases (visit-count decrements) performed
so far. progressed records the loop flags: false once a pass harvests no
successful task, which is when the while loop of src/main.rs:128 exits. -/
structure PState where
  queue : List Finding
  visits : Counts
  archive : List Finding
  adm : Counts
  rel : Counts
  progressed : Bool
deriving DecidableEq, Repr

/-- Outcome of one full drain_filter admission sweep. -/
structure AdmitRes where
  retained : List Finding
  visits : Counts
  adm : Counts
  crawls : List (Url × Nat)
  fetches : List Url
deriving DecidableEq, Repr

/-- Model of the drain_filter admission sweep (src/main.rs:131-159): each
finding in queue order is admitted (spawning a crawl or fetch task and
incrementing its host's count) when the count is strictly below
MAX_HOST_VISITORS, and otherwise retained for the next pass; none models
the `expect("url must have host")` panic on a host-less URL. -/
def admitAll : List Finding → Counts → Counts → Option AdmitRes
  | [], v, a => some { retained := [], visits := v, adm := a, crawls := [], fetches := [] }
  | f :: t, v, a =>
    match hostOf f with
    | none => none
    | some h =>
      if getC v h < MAX_HOST_VISITORS then
        match admitAll t (bumpC v h) (bumpC a h) with
        | none => none
        | some r =>
          match f with
          | .Page u d => some { r with crawls := (u, d) :: r.crawls }
          | .Image u => some { r with fetches := u :: r.fetches }
      else
        match admitAll t v a with
        | none => none
        | some r => some { r with retained := f :: r.retained }

/-- Outcome of the crawl harvest loop. -/
structure HarvestRes where
  visits : Counts
  rel : Counts
  archive : List Finding
  queue : List Finding
  progressed : Bool
deriving DecidableEq, Repr

/-- Model of the crawl harvest loop (src/main.rs:166-191): for each spawned
crawl, a failed task (crawlResult none) is only logged; a successful one
releases its host, filters its findings through the archive, extends the
archive, and requeues the fresh findings when the response depth is
strictly below the limit; only successes mark progress. A host-less crawl
link would panic (none). -/
def harvestCrawls (cfg : PassConfig) :
    List (Url × Nat) → Counts → Counts → List Finding → List Finding → Bool →
      Option HarvestRes
  | [], v, r, ar, q, prog =>
    some { visits := v, rel := r, archive := ar, queue := q, progressed := prog }
  | (u, d) :: t, v, r, ar, q, prog =>
    match cfg.crawlResult u d with
    | none => harvestCrawls cfg t v r ar q prog
    | some found =>
      match u.host with
      | none => none
      | some h =>
        let fresh := found.filter (fun f => decide (f ∉ ar))
        harvestCrawls cfg t (decC v h) (bumpC r h) (ar ++ fresh)
          (if d < cfg.maxDepth then q ++ fresh else q) true

/-- One iteration of the main loop of Dispatcher::run (src/main.rs:128-204)
with every network operation succeeding: admission sweep, crawl harvest,
then fetch harvest (which touches no dispatcher state and releases
nothing, but marks progress whenever a fetch task completed). -/
def pass (cfg : PassConfig) (s : PState) : Option PState :=
  match admitAll s.queue s.visits s.adm with
  | none => none
  | some a =>
    match harvestCrawls cfg a.crawls a.visits s.rel s.archive a.retained false with
    | none => none
    | some hv =>
      some { queue := hv.queue, visits := hv.visits, archive := hv.archive
             adm := a.adm, rel := hv.rel
             progressed := hv.progressed || !a.fetches.isEmpty }

/-- Iterated passes of the deterministic model. -/
def passN (cfg : PassConfig) (s : PState) : Nat → Option PState
  | 0 => some s
  | n + 1 =>
    match passN cfg s n with
    | none => none
    | some t => pass cfg t

/-- Initial state of the deterministic model, mirroring initState. -/
def initPState (seeds : List Url) : PState :=
  { queue := seeds.map (fun u => Finding.Page u 0)
    visits := []
    archive := []
    adm := []
    rel := []
    progressed := true }

theorem getC_bumpC_self (c : Counts) (h : String) :
    getC (bumpC c h) h = getC c h + 1 := by
  induction c with
  | nil => simp [bumpC, getC]
  | cons p t ih =>
    obtain ⟨k, v⟩ := p
    by_cases hk : k = h <;> simp [bumpC, getC, hk, ih]

theorem getC_bumpC_other (c : Counts) (h x : String) (hx : x ≠ h) :
    getC (bumpC c h) x = getC c x := by
  induction c with
  | nil => simp [bumpC, getC, Ne.symm hx]
  | cons p t ih =>
    obtain ⟨k, v⟩ := p
    by_cases hk : k = h
    · have hkx : ¬ k = x := fun hkx => hx (hkx.symm.trans hk)
      simp [bumpC, getC, hk, hkx, Ne.symm hx]
    · by_cases hkx : k = x <;> simp [bumpC, getC, hk, hkx, ih, hx, Ne.symm hx]

theorem getC_decC_self (c : Counts) (h : String) :
    getC (decC c h) h = getC c h - 1 := by
  induction c with
  | nil => simp [decC, getC]
  | cons p t ih =>
    obtain ⟨k, v⟩ := p
    by_cases hk : k = h <;> simp [decC, getC, hk, ih]

theorem getC_decC_other (c : Counts) (h x : String) (hx : x ≠ h) :
    getC (decC c h) x = getC c x := by
  induction c with
  | nil => simp [decC, getC]
  | cons p t ih =>
    obtain ⟨k, v⟩ := p
    by_cases hk : k = h
    · have hkx : ¬ k = x := fun hkx => hx (hkx.symm.trans hk)
      simp [decC, getC, hk, hkx, Ne.symm hx]
    · by_cases hkx : k = x <;> simp [decC, getC, hk, hkx, ih, hx, Ne.symm hx]

theorem mem_dedupAcc (x : Url) : ∀ (t acc : List Url), x ∈ dedupAcc t acc → x ∈ t ∨ x ∈ acc := by
  intro t
  induction t with
  | nil =>
    intro acc hx
    right
    simpa [dedupAcc] using hx
  | cons u t ih =>
    intro acc hx
    simp only [dedupAcc] at hx
    by_cases hm : u ∈ acc
    · rw [if_pos hm] at hx
      rcases ih acc hx with h | h
      · exact Or.inl (List.mem_cons_of_mem _ h)
      · exact Or.inr h
    · rw [if_neg hm] at hx
      rcases ih (u :: acc) hx with h | h
      · exact Or.inl (List.mem_cons_of_mem _ h)
      · rcases List.mem_cons.mp h with h | h
        · exact Or.inl (h ▸ List.mem_cons_self _ _)
        · exact Or.inr h

/-- C1: the claim states that a successful Spider Task invoked at depth d
tags every page-type Finding at depth d + 1 and leaves image-type Findings
untagged. The code propagates the depth unchanged: crawl_page at depth 2 of
a page with one anchor and one image returns the page Finding tagged 2, not
3 (the image Finding is indeed untagged). -/
theorem claim_C1_same_depth :
    crawl_page { scheme := "https", host := some "e.t", path := "/", query := none }
        ["https://e.t/a"] ["https://e.t/i.png"] 2 =
      some { new_findings :=
               [Finding.Page { scheme := "https", host := some "e.t", path := "/a", query := none } 2,
                Finding.Image { scheme := "https", host := some "e.t", path := "/i.png", query := none }],
             crawl_link := { scheme := "https", host := some "e.t", path := "/", query := none },
             depth := 2 } := rfl

/-- Page URL of the deterministic counterexample runs: one page on host p. -/
def pu2 : Url := { scheme := "https", host := some "p", path := "/", query := none }

/-- Image URL on host h linked from pu2. -/
def iu2 : Url := { scheme := "https", host := some "h", path := "/i", query := none }

/-- Crawl graph for C2: the seed page yields one image finding; everything
else is empty. All network operations succeed. -/
def cfg2 : PassConfig :=
  { maxDepth := MAX_RECURSION_DEPTH
    crawlResult := fun u _ => if u = pu2 then some [Finding.Image iu2] else some [] }

/-- Quiescent final state of the C2 run: frontier empty, no task
outstanding, loop flags signal exit. -/
def c2final : PState :=
  { queue := [], visits := [("p", 0), ("h", 1)], archive := [Finding.Image iu2]
    adm := [("p", 1), ("h", 1)], rel := [("p", 1)], progressed := false }

/-- C2: the claim states that every successful try_admit is eventually
matched by exactly one release. Counterexample run: the dispatcher crawls
pu2, admits the discovered image on host h (adm h = 1), the fetch task
completes, and the run goes quiescent with rel h = 0 and the host-visit
count for h stuck at 1 — the fetch harvest loop (src/main.rs:194-203) never
decrements host_visits. -/
theorem claim_C2_fetch_never_released :
    passN cfg2 (initPState [pu2]) 3 = some c2final ∧
    getC c2final.adm "h" = 1 ∧ getC c2final.rel "h" = 0 ∧
    c2final.queue = [] ∧ getC c2final.visits "h" = 1 :=
  ⟨rfl, rfl, rfl, rfl, rfl⟩

/-- C3: in every reachable dispatcher state the in-flight visit count of
every host stays at or below MAX_HOST_VISITORS, because the drain_filter
admission increments only under the strict guard
`visits < MAX_HOST_VISITORS` (src/main.rs:138). -/
theorem claim_C3_host_bound (maxDepth : Nat) (seeds : List Url) (s : DState)
    (hr : Reach maxDepth (initState seeds) s) (host : String) :
    getC s.host_visits host ≤ MAX_HOST_VISITORS := by
  induction hr with
  | refl => simp [initState, getC]
  | tail t u hr hstep ih =>
    cases hstep with
    | admitPage u' d h hmem hh hlt =>
      show getC (bumpC t.host_visits h) host ≤ MAX_HOST_VISITORS
      by_cases hx : host = h
      · subst hx
        rw [getC_bumpC_self]
        exact hlt
      · rw [getC_bumpC_other _ _ _ hx]
        exact ih
    | admitImage u' h hmem hh hlt =>
      show getC (bumpC t.host_visits h) host ≤ MAX_HOST_VISITORS
      by_cases hx : host = h
      · subst hx
        rw [getC_bumpC_self]
        exact hlt
      · rw [getC_bumpC_other _ _ _ hx]
        exact ih
    | crawlOk u' d h found hmem hh =>
      show getC (decC t.host_visits h) host ≤ MAX_HOST_VISITORS
      by_cases hx : host = h
      · subst hx
        rw [getC_decC_self]
        exact le_trans (Nat.sub_le _ _) ih
      · rw [getC_decC_other _ _ _ hx]
        exact ih
    | crawlFail u' d hmem => exact ih
    | fetchDone u' hmem => exact ih

/-- Witness for C3 at a concrete seed and host. -/
theorem claim_C3_host_bound_witness :
    getC (initState
        [{ scheme := "https", host := some "example.test", path := "/", query := none }]).host_visits
      "example.test" ≤ MAX_HOST_VISITORS :=
  claim_C3_host_bound MAX_RECURSION_DEPTH
    [{ scheme := "https", host := some "example.test", path := "/", query := none }]
    _ (Reach.refl _) "example.test"

/-- C4: the claim states that an unparsable seed such as "not_a_url" makes
the process exit with a failure and a diagnostic identifying the offending
URL as an "Invalid URL". The process does panic before spawning any task,
but the panic message is the url crate's error display, which neither
contains "Invalid URL" nor names the offending URL — contradicting the
repository's own test (src/tests/cli.rs:11-20). -/
theorem claim_C4_no_invalid_url_message :
    parseSeeds ["not_a_url"] = .error "relative URL without a base" ∧
    containsSubstr "relative URL without a base" "Invalid URL" = false ∧
    containsSubstr "relative URL without a base" "not_a_url" = false :=
  ⟨rfl, rfl, rfl⟩

/-- Example page of spec Scenario C. -/
def blogPage : Url :=
  { scheme := "https", host := some "example.test", path := "/blog/post1", query := none }

/-- Resolution of the candidate "/about" on blogPage per spec Scenario C. -/
def aboutUrl : Url :=
  { scheme := "https", host := some "example.test", path := "/about", query := none }

/-- C5 counterexample: the claim states that a relative candidate whose
resolution against the site-root fails is dropped alone, the other
candidates of the page still being returned. In the code the `.unwrap()` at
src/main.rs:273 panics instead: with candidates "/about" and "//bad host/"
on page https://example.test/blog/post1, parse_links dies (none) and
returns no URL at all, although "/about" alone resolves fine. -/
theorem claim_C5_page_aborted :
    parse_links ["/about", "//bad host/"] (siteRoot blogPage) = none ∧
    parse_links ["/about"] (siteRoot blogPage) = some [aboutUrl] :=
  ⟨rfl, rfl⟩

/-- C5 amended: a candidate whose parse is RelativeUrlWithoutBase and whose
join against the site-root fails panics the page's task, so parse_links
aborts the entire page and returns no URL from it (the dispatcher logs the
dead task and continues). -/
theorem claim_C5_amended (links : List String) (page_url : Url) (l : String)
    (h1 : l ∈ links) (h2 : resolveLink page_url l = none) :
    parse_links links page_url = none := by
  have key : ∀ ls : List String, l ∈ ls → resolveLinks page_url ls = none := by
    intro ls
    induction ls with
    | nil => intro hx; cases hx
    | cons a t ih =>
      intro hx
      rcases List.mem_cons.mp hx with rfl | hmem
      · simp [resolveLinks, h2]
      · have ht := ih hmem
        cases hras : resolveLink page_url a with
        | none => simp [resolveLinks, hras]
        | some o => cases o <;> simp [resolveLinks, hras, ht]
  simp [parse_links, key links h1]

/-- Witness for the amended C5 at the concrete failing page. -/
theorem claim_C5_amended_witness :
    parse_links ["/about", "//bad host/"] (siteRoot blogPage) = none :=
  claim_C5_amended _ _ "//bad host/" (by simp) rfl

/-- C6: deduplicating a finding set against the archive and extending the
archive with the result makes a second difference of the same set empty, so
no finding is ever queued for dispatch twice (src/main.rs:182-183). -/
theorem claim_C6_dedup_idempotent (A S : Finset Finding) :
    archiveDifference (archiveExtend A (archiveDifference A S)) S = ∅ := by
  ext f
  simp only [archiveDifference, archiveExtend, Finset.mem_sdiff, Finset.mem_union,
    Finset.not_mem_empty, iff_false, not_and, not_not]
  tauto

/-- C7: a relative candidate resolves against the site-root of the page —
the page URL with path and query stripped — not against the page's own
directory: on any page whose scheme passes the http filter and whose host
is present, the candidate "/about" resolves to scheme://host/about,
independently of the page's path. -/
theorem claim_C7_site_root_resolution (p : Url) (host : String) (hh : p.host = some host)
    (hs : containsSubstr p.scheme "http" = true) :
    parse_links ["/about"] (siteRoot p) =
      some [{ scheme := p.scheme, host := some host, path := "/about", query := none }] := by
  have h1 : resolveLink (siteRoot p) "/about" =
      some (some { scheme := p.scheme, host := p.host, path := "/about", query := none }) := rfl
  simp only [parse_links, resolveLinks, h1]
  simp only [List.filter, hh, hs]
  simp [dedupAcc]

/-- Witness for C7 at spec Scenario C: "/about" on page
https://example.test/blog/post1 resolves to https://example.test/about,
not to https://example.test/blog/about. -/
theorem claim_C7_site_root_resolution_witness :
    parse_links ["/about"] (siteRoot blogPage) = some [aboutUrl] :=
  claim_C7_site_root_resolution blogPage "example.test" rfl rfl

/-- C8: every URL produced by parse_links has a scheme textually containing
"http" and a present host (the two filters of src/main.rs:280-282); in
particular the candidate "javascript:void(0)" never becomes a Finding. -/
theorem claim_C8_output_filtered (links : List String) (page_url : Url) (out : List Url)
    (u : Url) (hout : parse_links links page_url = some out) (hu : u ∈ out) :
    (containsSubstr u.scheme "http" = true ∧ u.host.isSome = true) ∧
    parse_links ["javascript:void(0)"] page_url = some [] := by
  refine ⟨?_, rfl⟩
  unfold parse_links at hout
  cases hres : resolveLinks page_url links with
  | none => rw [hres] at hout; cases hout
  | some us =>
    rw [hres] at hout
    have hout2 : out = dedupAcc ((us.filter fun u => containsSubstr u.scheme "http").filter
        fun u => u.host.isSome) [] := by
      injection hout with h
      exact h.symm
    rw [hout2] at hu
    rcases mem_dedupAcc u _ [] hu with hmem | hmem
    · have h2 := List.mem_filter.mp hmem
      have h3 := List.mem_filter.mp h2.1
      exact ⟨h3.2, h2.2⟩
    · cases hmem

/-- Passing candidate of the C8 witness. -/
def okUrl : Url := { scheme := "https", host := some "ok.test", path := "/x", query := none }

/-- Page URL of the C8 witness. -/
def pgUrl : Url := { scheme := "https", host := some "pg", path := "/", query := none }

/-- Witness for C8 on a page with one passing candidate, and spec Scenario
B for the javascript candidate. -/
theorem claim_C8_output_filtered_witness :
    (containsSubstr okUrl.scheme "http" = true ∧ okUrl.host.isSome = true) ∧
    parse_links ["javascript:void(0)"] pgUrl = some [] :=
  claim_C8_output_filtered ["https://ok.test/x"] pgUrl [okUrl] okUrl rfl (by simp)

set_option maxRecDepth 100000

/-- Image URL number i on host h, for the C9 counterexample graph. -/
def imgU (i : Nat) : Url :=
  { scheme := "https", host := some "h", path := toString i, query := none }

/-- The 513 image findings of the C9 counterexample: one more than
MAX_HOST_VISITORS, all on the same host. -/
def imgs513 : List Finding :=
  (List.range 513).map (fun i => Finding.Image (imgU i))

/-- C9 counterexample graph: a finite acyclic link graph in which the
single seed page pu2 links 513 images on host h and nothing else; every
network operation succeeds. -/
def cex9 : PassConfig :=
  { maxDepth := MAX_RECURSION_DEPTH
    crawlResult := fun u _ => if u = pu2 then some imgs513 else some [] }

/-- State after one pass of the C9 run: the 513 images are queued. -/
def s1val : PState :=
  { queue := imgs513, visits := [("p", 0)], archive := imgs513
    adm := [("p", 1)], rel := [("p", 1)], progressed := true }

/-- State after two passes: 512 images were admitted and fetched, but their
host count is never released, so the 513th image stays queued behind a
saturated ceiling. -/
def s2val : PState :=
  { queue := [Finding.Image (imgU 512)], visits := [("p", 0), ("h", 512)], archive := imgs513
    adm := [("p", 1), ("h", 512)], rel := [("p", 1)], progressed := true }

/-- Fixpoint state of the C9 run from pass three on: the loop flags signal
exit (progressed = false) while the frontier still holds the 513th image. -/
def sFix9 : PState :=
  { queue := [Finding.Image (imgU 512)], visits := [("p", 0), ("h", 512)], archive := imgs513
    adm := [("p", 1), ("h", 512)], rel := [("p", 1)], progressed := false }

theorem passN1_cex9 : passN cex9 (initPState [pu2]) 1 = some s1val := by decide

theorem passN2_cex9 : passN cex9 (initPState [pu2]) 2 = some s2val := by decide

theorem passN3_cex9 : passN cex9 (initPState [pu2]) 3 = some sFix9 := by decide

theorem pass_fix_cex9 : pass cex9 sFix9 = some sFix9 := by decide

theorem passN_ge3_cex9 (k : Nat) : passN cex9 (initPState [pu2]) (3 + k) = some sFix9 := by
  induction k with
  | zero => exact passN3_cex9
  | succ n ih =>
    show passN cex9 (initPState [pu2]) ((3 + n) + 1) = some sFix9
    simp only [passN]
    rw [ih]
    exact pass_fix_cex9

/-- C9: the claim states that on every finite acyclic link graph with a
finite depth limit the dispatcher reaches the Drained state (empty frontier
and no outstanding task) in finitely many passes. On the cex9 graph — one
page linking 513 same-host images, every request succeeding — no number of
passes ever empties the frontier: the fetch harvest never releases host
visits, the host saturates at MAX_HOST_VISITORS, and the loop exits (from
pass three on, the state is a fixpoint with progressed = false) with the
513th image still queued. -/
theorem claim_C9_never_drained :
    ¬ ∃ n s, passN cex9 (initPState [pu2]) n = some s ∧ s.queue = [] := by
  rintro ⟨n, s, hn, hq⟩
  rcases n with _ | _ | _ | m
  · rw [show passN cex9 (initPState [pu2]) 0 = some (initPState [pu2]) from rfl] at hn
    injection hn with h
    rw [← h] at hq
    exact absurd hq (by decide)
  · rw [passN1_cex9] at hn
    injection hn with h
    rw [← h] at hq
    exact absurd hq (by decide)
  · rw [passN2_cex9] at hn
    injection hn with h
    rw [← h] at hq
    exact absurd hq (by decide)
  · have h3 := passN_ge3_cex9 m
    rw [Nat.add_comm 3 m] at h3
    rw [h3] at hn
    injection hn with h
    rw [← h] at hq
    exact absurd hq (by decide)

/-- Host-less seed URL of C10. -/
def mailtoUrl : Url :=
  { scheme := "mailto", host := none, path := "foo@bar", query := none }

/-- C10: seed URLs bypass the resolver's scheme/host filter: the host-less
seed "mailto:foo@bar" parses, enters the frontier as a depth-0 page
Finding, and the admission sweep then panics on it when resolving its host
for throttling (`expect("url must have host")`, src/main.rs:135, modelled
by admitAll returning none). -/
theorem claim_C10_hostless_seed_panics :
    parseSeeds ["mailto:foo@bar"] = .ok [mailtoUrl] ∧
    mailtoUrl.host = none ∧
    containsSubstr mailtoUrl.scheme "http" = false ∧
    (initPState [mailtoUrl]).queue = [Finding.Page mailtoUrl 0] ∧
    admitAll (initPState [mailtoUrl]).queue [] [] = none :=
  ⟨rfl, rfl, rfl, rfl, rfl⟩

end Crawler
